import Mathlib

/-!
Verification of the Airbyte connector specification against a shallow
embedding of the repository code.

Part 1: the declarative-parser code that is present in the repository
(`airbyte_cdk/sources/declarative/parsers/factory.py` and
`component_constructor.py`).  Python dict values relevant to these
functions are modelled by `PyVal`; a Python `dict` is modelled by an
association list `PyDict` whose operations mirror the dict operations
used by the code (`lookup`, key test, assignment, `pop`).
-/

set_option autoImplicit false

/-- A Python value as used by the declarative parser code: a string
(class names and `type` tags are strings), the builtin class object
`dict` (returned by the fallback branches of `get_class_name`), or some
other opaque payload. -/
inductive PyVal where
  | str : String → PyVal
  | dictClassObj : PyVal
  | other : Nat → PyVal
deriving DecidableEq, Repr

/-- A Python `dict` with string keys, as an insertion-ordered association
list. -/
abbrev PyDict := List (String × PyVal)

/-- Lookup of a key, mirroring Python `d[k]` and `k in d` (first entry in
insertion order; Python dicts have unique keys). -/
def dlookup : PyDict → String → Option PyVal
  | [], _ => none
  | (k', v) :: rest, k => if k' = k then some v else dlookup rest k

/-- Python `d[k] = v`: replace the value at an existing key in place,
otherwise append the new entry at the end. -/
def dset : PyDict → String → PyVal → PyDict
  | [], k, v => [(k, v)]
  | (k', v') :: rest, k, v =>
    if k' = k then (k, v) :: rest else (k', v') :: dset rest k v

/-- Python `d.pop(k)`: remove the entry with key `k`. -/
def dpop (d : PyDict) (k : String) : PyDict :=
  d.filter (fun p => p.1 ≠ k)

theorem dlookup_dset_self (d : PyDict) (k : String) (v : PyVal) :
    dlookup (dset d k v) k = some v := by
  induction d with
  | nil => simp [dset, dlookup]
  | cons hd tl ih =>
    by_cases h : hd.1 = k
    · simp [dset, dlookup, h]
    · simp [dset, dlookup, h, ih]

theorem dlookup_dset_ne (d : PyDict) (k k' : String) (v : PyVal)
    (h : k' ≠ k) : dlookup (dset d k v) k' = dlookup d k' := by
  have hk' : ¬ (k = k') := fun hh => h hh.symm
  induction d with
  | nil => simp [dset, dlookup, hk']
  | cons hd tl ih =>
    by_cases hk : hd.1 = k
    · rw [show hd = (hd.1, hd.2) from rfl, hk]
      simp [dset, dlookup, hk']
    · simp only [dset, if_neg hk]
      by_cases hhd : hd.1 = k'
      · simp [dlookup, hhd]
      · simp [dlookup, hhd, ih]

theorem dlookup_dpop_self (d : PyDict) (k : String) :
    dlookup (dpop d k) k = none := by
  induction d with
  | nil => simp [dpop, dlookup]
  | cons hd tl ih =>
    by_cases h : hd.1 = k
    · simpa [dpop, h] using ih
    · simpa [dpop, dlookup, h] using ih

/-- The factory `get_class_name` (factory.py lines 75-84).  It receives
the caller's mapping and may mutate it: when the mapping has no
`class_name` key but has a `type` key, the `type` key is popped from the
mapping and the class name is looked up in `CLASS_TYPES_REGISTRY`
(modelled by the `registry` function).  The result is the returned class
name together with the state of the mapping after the call; `none`
models a `KeyError` from the registry lookup. -/
def get_class_name (registry : String → Option String) (d : PyDict) :
    Option (PyVal × PyDict) :=
  match dlookup d "class_name" with
  | some v => some (v, d)
  | none =>
    match dlookup d "type" with
    | some (PyVal.str t) =>
      match registry t with
      | some cn => some (PyVal.str cn, dpop d "type")
      | none => none
    | some _ => none
    | none => some (PyVal.dictClassObj, d)

/-- The factory `resolve` (factory.py lines 23-27): deep-copy the
mapping first, then call `get_class_name` on the ORIGINAL mapping (which
may pop `type` from it), then set `class_name` on the copy.  The result
is the returned copy paired with the state of the caller's original
mapping after the call. -/
def DeclarativeComponentFactory.resolve (registry : String → Option String)
    (d : PyDict) : Option (PyDict × PyDict) :=
  match get_class_name registry d with
  | some (cn, dAfter) => some (dset d "class_name" cn, dAfter)
  | none => none

/-- C9: for a component definition with a `type` key and no `class_name`
key, `resolve` returns a copy with `class_name` set to the registry
entry for the type, while as a side effect the `type` key is removed
from the caller's original mapping; the returned copy still contains
both `type` and `class_name`.  A mapping that already contains
`class_name` leaves the caller's mapping unchanged. -/
theorem C9_resolve_pops_type_from_original
    (registry : String → Option String) (d : PyDict) (t cn : String)
    (hcn : dlookup d "class_name" = none)
    (ht : dlookup d "type" = some (PyVal.str t))
    (hreg : registry t = some cn) :
    DeclarativeComponentFactory.resolve registry d =
      some (dset d "class_name" (PyVal.str cn), dpop d "type") ∧
    dlookup (dset d "class_name" (PyVal.str cn)) "type" = some (PyVal.str t) ∧
    dlookup (dset d "class_name" (PyVal.str cn)) "class_name" = some (PyVal.str cn) ∧
    dlookup (dpop d "type") "type" = none ∧
    (∀ d' v, dlookup d' "class_name" = some v →
      DeclarativeComponentFactory.resolve registry d' = some (dset d' "class_name" v, d')) := by
  refine ⟨?_, ?_, ?_, ?_, ?_⟩
  · simp [DeclarativeComponentFactory.resolve, get_class_name, hcn, ht, hreg]
  · rw [dlookup_dset_ne]
    · exact ht
    · decide
  · exact dlookup_dset_self d "class_name" (PyVal.str cn)
  · exact dlookup_dpop_self d "type"
  · intro d' v h
    simp [DeclarativeComponentFactory.resolve, get_class_name, h]

/-- C9 witness: a concrete definition mapping with a `type` key. -/
theorem C9_resolve_pops_type_from_original_witness :
    DeclarativeComponentFactory.resolve
      (fun t => if t = "DpathExtractor" then some "some.module.DpathExtractor" else none)
      [("type", PyVal.str "DpathExtractor"), ("field", PyVal.other 7)] =
      some (dset [("type", PyVal.str "DpathExtractor"), ("field", PyVal.other 7)]
              "class_name" (PyVal.str "some.module.DpathExtractor"),
            dpop [("type", PyVal.str "DpathExtractor"), ("field", PyVal.other 7)] "type") := by
  exact (C9_resolve_pops_type_from_original
    (fun t => if t = "DpathExtractor" then some "some.module.DpathExtractor" else none)
    [("type", PyVal.str "DpathExtractor"), ("field", PyVal.other 7)]
    "DpathExtractor" "some.module.DpathExtractor"
    (by decide) (by decide) (by decide)).1

/-!
Part 2: `ComponentConstructor` (component_constructor.py).  The class is
modelled abstractly: a component class has a constructor taking the
keyword-argument mapping (`cls(**resolved)`) and a `resolve_dependencies`
class method taking the model, config, dependency constructor,
additional flags and extra keyword arguments.
-/

/-- A component class as used by `ComponentConstructor.build`: its
constructor (called as `cls(**kwargs)`) and its `resolve_dependencies`
class method. -/
structure ComponentClass (M C Dc Fl Kw Component : Type) where
  ctor : PyDict → Component
  resolveDependencies : M → C → Dc → Fl → Kw → PyDict

/-- The base-class `resolve_dependencies` (component_constructor.py
lines 25-39): it returns the empty mapping for all inputs. -/
def baseResolveDependencies {M C Dc Fl Kw : Type} : M → C → Dc → Fl → Kw → PyDict :=
  fun _ _ _ _ _ => []

/-- `ComponentConstructor.build` (component_constructor.py lines 41-68):
resolve the dependencies, then return `cls(**resolved_dependencies)`. -/
def ComponentConstructor.build {M C Dc Fl Kw Component : Type}
    (cls : ComponentClass M C Dc Fl Kw Component)
    (model : M) (config : C) (dependency_constructor : Dc)
    (additional_flags : Fl) (kwargs : Kw) : Component :=
  cls.ctor (cls.resolveDependencies model config dependency_constructor additional_flags kwargs)

/-- C10: `build` returns `cls(**cls.resolve_dependencies(...))` and
nothing else; for a class using the base `resolve_dependencies`, the
constructor is called with the empty keyword mapping, so the model, the
config and all extra keyword arguments are never forwarded — `build` is
constant in all of its arguments. -/
theorem C10_build_forwards_only_resolved_dependencies
    {M C Dc Fl Kw Component : Type}
    (cls : ComponentClass M C Dc Fl Kw Component)
    (m : M) (c : C) (dc : Dc) (fl : Fl) (kw : Kw)
    (hbase : cls.resolveDependencies = baseResolveDependencies) :
    ComponentConstructor.build cls m c dc fl kw =
      cls.ctor (cls.resolveDependencies m c dc fl kw) ∧
    ComponentConstructor.build cls m c dc fl kw = cls.ctor [] ∧
    (∀ (m' : M) (c' : C) (dc' : Dc) (fl' : Fl) (kw' : Kw),
      ComponentConstructor.build cls m c dc fl kw =
        ComponentConstructor.build cls m' c' dc' fl' kw') := by
  refine ⟨rfl, ?_, ?_⟩
  · simp [ComponentConstructor.build, hbase, baseResolveDependencies]
  · intro m' c' dc' fl' kw'
    simp [ComponentConstructor.build, hbase, baseResolveDependencies]

/-- C10 witness: a concrete component class with the base
`resolve_dependencies`; its constructor receives the empty mapping. -/
theorem C10_build_forwards_only_resolved_dependencies_witness :
    ComponentConstructor.build
      (ComponentClass.mk (fun d => d.length) baseResolveDependencies :
        ComponentClass PyVal PyVal PyVal PyVal PyVal Nat)
      (PyVal.other 1) (PyVal.other 2) (PyVal.other 3) (PyVal.other 4) (PyVal.other 5) =
    (ComponentClass.mk (fun d => d.length) baseResolveDependencies :
        ComponentClass PyVal PyVal PyVal PyVal PyVal Nat).ctor [] := by
  exact (C10_build_forwards_only_resolved_dependencies
    (ComponentClass.mk (fun d => d.length) baseResolveDependencies :
      ComponentClass PyVal PyVal PyVal PyVal PyVal Nat)
    (PyVal.other 1) (PyVal.other 2) (PyVal.other 3) (PyVal.other 4) (PyVal.other 5)
    rfl).2.1

/-!
Part 3: the Salesforce connector.  The connector implementation itself
(`source_salesforce/async_salesforce/streams.py` etc.) is not part of
the source tree here — only its unit tests are — so the components below
are modelled from the specification (sections 4.1-4.5, 6, 7 of the
spec), with concrete behaviour cross-checked against the unit tests in
`unit_tests/api_test_async.py`.

First the CSV Chunk Reader (spec section 4.2): decode a downloaded
result file into row mappings, stripping embedded null bytes, enforcing
a field-size ceiling, treating empty CSV values as null and preserving
column order from the header row.
-/

/-- The null byte, as a character of the decoded payload. -/
def nullChar : Char := Char.ofNat 0

/-- Modelled from the spec: `download_data` writes the downloaded result
file after removing stray null bytes ("strip/ignore stray null bytes
without corrupting surrounding fields", spec 4.2). -/
def filterNullBytes (cs : List Char) : List Char :=
  cs.filter (fun c => c ≠ nullChar)

/-- Split a character list on a separator character. -/
def splitOnChar (sep : Char) : List Char → List (List Char)
  | [] => [[]]
  | c :: rest =>
    let r := splitOnChar sep rest
    if c = sep then [] :: r
    else
      match r with
      | [] => [[c]]
      | f :: fs => (c :: f) :: fs

/-- The lines of a CSV payload; blank lines produce no row. -/
def csvLines (cs : List Char) : List (List Char) :=
  (splitOnChar '\n' cs).filter (fun l => l ≠ [])

/-- Modelled from the spec: one line of CSV is split into fields at
commas, with double-quoted fields (a doubled quote inside a quoted field
is an escaped quote).  The Boolean argument tells whether the scan is
inside a quoted field. -/
def splitLineAux : List Char → Bool → List Char → List (List Char) → List (List Char)
  | [], _, cur, acc => acc ++ [cur]
  | '"' :: '"' :: rest, true, cur, acc => splitLineAux rest true (cur ++ ['"']) acc
  | '"' :: rest, true, cur, acc => splitLineAux rest false cur acc
  | c :: rest, true, cur, acc => splitLineAux rest true (cur ++ [c]) acc
  | '"' :: rest, false, cur, acc => splitLineAux rest true cur acc
  | ',' :: rest, false, cur, acc => splitLineAux rest false [] (acc ++ [cur])
  | c :: rest, false, cur, acc => splitLineAux rest false (cur ++ [c]) acc

/-- Modelled from the spec: the fields of one CSV line; an empty value
is treated as null (`none`), not as the empty string (spec 4.2). -/
def parseLine (cs : List Char) : List (Option (List Char)) :=
  (splitLineAux cs false [] []).map (fun f => if f = [] then none else some f)

/-- Modelled from the spec: the raw rows of a CSV payload (header row
included), before the field-size check and header zipping. -/
def parseCSVRows (input : List Char) : List (List (Option (List Char))) :=
  (csvLines input).map parseLine

/-- A row mapping produced by the Chunk Reader: field name to value,
in header-column order. -/
def CsvRow := List (List Char × Option (List Char))

/-- Modelled from the spec: the first row is the header; each following
row is zipped with the header names, preserving column order. -/
def zipHeader : List (List (Option (List Char))) → List (List (List Char × Option (List Char)))
  | [] => []
  | header :: dataRows =>
    let names := header.map (fun f => f.getD [])
    dataRows.map (fun r => names.zip r)

/-- Modelled from the spec: the field-size ceiling
`CSV_FIELD_SIZE_LIMIT` set by the connector (the unit tests import it
from `streams.py`); it must be higher than the platform default of the
Python csv module. -/
def CSV_FIELD_SIZE_LIMIT : Nat := 100 * 1024 * 1024

/-- The Python csv module default field size limit (the platform
default; named `DEFAULT_CSV_FIELD_SIZE_LIMIT` in the unit test). -/
def DEFAULT_CSV_FIELD_SIZE_LIMIT : Nat := 1024 * 128

/-- The size of one parsed CSV field (a null value has size zero). -/
def fieldSize (f : Option (List Char)) : Nat :=
  (f.getD []).length

/-- Modelled from the spec: the reader rejects a row set with a parse
error when any field exceeds the field-size ceiling; within the ceiling
the rows pass through unchanged (no truncation, no skipping). -/
def checkFieldSizes (limit : Nat) (rows : List (List (Option (List Char)))) :
    Except String (List (List (Option (List Char)))) :=
  if ∀ r ∈ rows, ∀ f ∈ r, fieldSize f ≤ limit then Except.ok rows
  else Except.error "field larger than field size limit"

/-- Modelled from the spec: `read_with_chunks` — parse the decoded file
into rows, enforce the field-size ceiling, and key each data row by the
header row. -/
def read_with_chunks (limit : Nat) (cs : List Char) :
    Except String (List (List (List Char × Option (List Char)))) :=
  match checkFieldSizes limit (parseCSVRows cs) with
  | Except.ok rows => Except.ok (zipHeader rows)
  | Except.error e => Except.error e

/-- Modelled from the spec: the full Chunk Reader pipeline on a
downloaded payload: null-byte filtering (`download_data`) followed by
`read_with_chunks` at the connector field-size ceiling. -/
def downloadAndRead (payload : List Char) :
    Except String (List (List (List Char × Option (List Char)))) :=
  read_with_chunks CSV_FIELD_SIZE_LIMIT (filterNullBytes payload)

theorem filterNullBytes_idem (cs : List Char) :
    filterNullBytes (filterNullBytes cs) = filterNullBytes cs := by
  simp [filterNullBytes, List.filter_filter]

theorem filterNullBytes_replicate_null (n : Nat) :
    filterNullBytes (List.replicate n nullChar) = [] := by
  induction n with
  | zero => rfl
  | succ m ih =>
    rw [List.replicate_succ]
    simp [filterNullBytes]

/-- C6: the Chunk Reader output for a payload with embedded null bytes
equals its output for the same payload with all null bytes removed (so
null bytes adjacent to a row never corrupt that row), and a payload
consisting only of null bytes yields no rows. -/
theorem C6_null_bytes_are_stripped (payload : List Char) (n : Nat) :
    downloadAndRead payload = downloadAndRead (filterNullBytes payload) ∧
    downloadAndRead (List.replicate n nullChar) = Except.ok [] := by
  constructor
  · unfold downloadAndRead
    rw [filterNullBytes_idem]
  · unfold downloadAndRead
    rw [filterNullBytes_replicate_null]
    rfl

/-- C7: the connector field-size ceiling is strictly greater than the
platform default; a row set whose fields all fit in the ceiling (such as
a 1 MiB field, which exceeds the platform default) is accepted unchanged
by the reader, and a row set with a field exceeding the ceiling is
rejected with a parse error rather than truncated or skipped. -/
theorem C7_csv_field_size_limit
    (goodRows badRows : List (List (Option (List Char))))
    (hgood : ∀ r ∈ goodRows, ∀ f ∈ r, fieldSize f ≤ CSV_FIELD_SIZE_LIMIT)
    (hbad : ∃ r ∈ badRows, ∃ f ∈ r, fieldSize f > CSV_FIELD_SIZE_LIMIT) :
    CSV_FIELD_SIZE_LIMIT > DEFAULT_CSV_FIELD_SIZE_LIMIT ∧
    checkFieldSizes CSV_FIELD_SIZE_LIMIT goodRows = Except.ok goodRows ∧
    (∃ e, checkFieldSizes CSV_FIELD_SIZE_LIMIT badRows = Except.error e) ∧
    (∀ cs : List Char, parseCSVRows cs = goodRows →
      read_with_chunks CSV_FIELD_SIZE_LIMIT cs = Except.ok (zipHeader goodRows)) := by
  refine ⟨by decide, ?_, ?_, ?_⟩
  · unfold checkFieldSizes
    rw [if_pos hgood]
  · have hnot : ¬ (∀ r ∈ badRows, ∀ f ∈ r, fieldSize f ≤ CSV_FIELD_SIZE_LIMIT) := by
      intro hall
      obtain ⟨r, hr, f, hf, hgt⟩ := hbad
      exact absurd (hall r hr f hf) (by omega)
    refine ⟨"field larger than field size limit", ?_⟩
    unfold checkFieldSizes
    rw [if_neg hnot]
  · intro cs hcs
    unfold read_with_chunks
    rw [hcs]
    unfold checkFieldSizes
    rw [if_pos hgood]

/-- C7 witness: a 1 MiB field — larger than the platform default — is
accepted, and a field one character over the ceiling is rejected. -/
theorem C7_csv_field_size_limit_witness :
    CSV_FIELD_SIZE_LIMIT > DEFAULT_CSV_FIELD_SIZE_LIMIT ∧
    checkFieldSizes CSV_FIELD_SIZE_LIMIT [[some (List.replicate (1024 * 1024) 'a')]] =
      Except.ok [[some (List.replicate (1024 * 1024) 'a')]] ∧
    (∃ e, checkFieldSizes CSV_FIELD_SIZE_LIMIT
      [[some (List.replicate (CSV_FIELD_SIZE_LIMIT + 1) 'a')]] = Except.error e) := by
  have h := C7_csv_field_size_limit
    [[some (List.replicate (1024 * 1024) 'a')]]
    [[some (List.replicate (CSV_FIELD_SIZE_LIMIT + 1) 'a')]]
    (by
      intro r hr f hf
      rw [List.mem_singleton] at hr
      subst hr
      rw [List.mem_singleton] at hf
      subst hf
      simp only [fieldSize, Option.getD_some, List.length_replicate]
      norm_num [CSV_FIELD_SIZE_LIMIT])
    (by
      refine ⟨[some (List.replicate (CSV_FIELD_SIZE_LIMIT + 1) 'a')],
        List.mem_singleton.mpr rfl, ?_⟩
      refine ⟨some (List.replicate (CSV_FIELD_SIZE_LIMIT + 1) 'a'),
        List.mem_singleton.mpr rfl, ?_⟩
      simp only [fieldSize, Option.getD_some, List.length_replicate]
      exact Nat.lt_succ_self _)
  exact ⟨h.1, h.2.1, h.2.2.1⟩

/-!
Part 4: the Job Poller (spec section 4.1).  `wait_for_job` polls the
job-status endpoint until a terminal state, a classified error or the
deadline.  The deadline `max_attempts * wait_timeout` with a fixed poll
interval is modelled as a budget of polls `maxPolls`; the status
endpoint is modelled as the function `polls`, giving the response to the
i-th poll.
-/

/-- The states of an Export Job (spec section 3). -/
inductive JobState where
  | created
  | uploadComplete
  | inProgress
  | jobComplete
  | jobFailed
  | aborted
deriving DecidableEq, Repr

/-- A response of the job-status endpoint: either a job state payload or
a vendor error body classified by its `errorCode` (spec section 6). -/
inductive PollResponse where
  | state (s : JobState)
  | httpError (errorCode : String) (message : String)
deriving DecidableEq, Repr

/-- The fixed remediation message of the transient-auth configuration
error (spec section 7(c); the unit test checks this exact text). -/
def TRANSIENT_AUTH_MESSAGE : String :=
  "A transient authentication error occurred. To prevent future syncs from failing, assign the \"Exempt from Transaction Security\" user permission to the authenticated user."

/-- The ways the Job Poller can fail (spec sections 4.1 and 7). -/
inductive PollError where
  | timeout
  | permanentFailure (s : JobState)
  | configError (message : String)
  | httpFailure (errorCode : String) (message : String)
deriving DecidableEq, Repr

/-- Modelled from the spec: `await_completion` / `wait_for_job` —
poll on a fixed interval up to the deadline, raising a fatal error if
the deadline elapses or the job reports a permanent failure; a
transaction-security error code is surfaced at once as a user-actionable
configuration error with the fixed remediation message, without
retrying; other error bodies fail the poll. -/
def wait_for_job (maxPolls : Nat) (polls : Nat → PollResponse) :
    Except PollError JobState :=
  match maxPolls with
  | 0 => Except.error PollError.timeout
  | d + 1 =>
    match polls 0 with
    | PollResponse.state JobState.jobComplete => Except.ok JobState.jobComplete
    | PollResponse.state JobState.jobFailed =>
      Except.error (PollError.permanentFailure JobState.jobFailed)
    | PollResponse.state JobState.aborted =>
      Except.error (PollError.permanentFailure JobState.aborted)
    | PollResponse.state _ => wait_for_job d (fun i => polls (i + 1))
    | PollResponse.httpError code msg =>
      if code = "TXN_SECURITY_METERING_ERROR" then
        Except.error (PollError.configError TRANSIENT_AUTH_MESSAGE)
      else Except.error (PollError.httpFailure code msg)

/-- Modelled from the spec: a bulk job read — wait for the job to
complete, then fetch its result records ("On success, the result
locator is initialized to the first page", spec 4.1). -/
def execute_job_and_read (maxPolls : Nat) (polls : Nat → PollResponse)
    (results : List Nat) : Except PollError (List Nat) :=
  match wait_for_job maxPolls polls with
  | Except.ok _ => Except.ok results
  | Except.error e => Except.error e

theorem wait_for_job_nonterminal_then_complete (N : Nat) :
    ∀ (polls : Nat → PollResponse) (maxPolls : Nat),
    N < maxPolls →
    (∀ i < N, polls i = PollResponse.state JobState.uploadComplete ∨
              polls i = PollResponse.state JobState.inProgress) →
    polls N = PollResponse.state JobState.jobComplete →
    wait_for_job maxPolls polls = Except.ok JobState.jobComplete := by
  induction N with
  | zero =>
    intro polls maxPolls h hn hd
    obtain ⟨d, rfl⟩ : ∃ d, maxPolls = d + 1 := ⟨maxPolls - 1, by omega⟩
    simp only [wait_for_job]
    rw [hd]
  | succ m ih =>
    intro polls maxPolls h hn hd
    obtain ⟨d, rfl⟩ : ∃ d, maxPolls = d + 1 := ⟨maxPolls - 1, by omega⟩
    have hrec : wait_for_job (d + 1) polls = wait_for_job d (fun i => polls (i + 1)) := by
      rcases hn 0 (Nat.succ_pos m) with h0 | h0 <;>
        · simp only [wait_for_job]
          rw [h0]
    rw [hrec]
    exact ih (fun i => polls (i + 1)) d (by omega)
      (fun i hi => hn (i + 1) (by omega)) hd

/-- C5: a run in which the status endpoint answers with non-terminal
states (`UploadComplete` or `InProgress`) exactly `N` times before
answering `JobComplete` yields the same records as a run in which the
very first poll answers `JobComplete`, provided the `N` polls fit within
the deadline. -/
theorem C5_retried_poll_equals_immediate_success
    (polls : Nat → PollResponse) (N maxPolls : Nat) (results : List Nat)
    (hfit : N < maxPolls)
    (hnonterm : ∀ i < N, polls i = PollResponse.state JobState.uploadComplete ∨
                         polls i = PollResponse.state JobState.inProgress)
    (hdone : polls N = PollResponse.state JobState.jobComplete) :
    execute_job_and_read maxPolls polls results =
      execute_job_and_read maxPolls (fun _ => PollResponse.state JobState.jobComplete) results ∧
    execute_job_and_read maxPolls polls results = Except.ok results := by
  have h1 : wait_for_job maxPolls polls = Except.ok JobState.jobComplete :=
    wait_for_job_nonterminal_then_complete N polls maxPolls hfit hnonterm hdone
  have h2 : wait_for_job maxPolls (fun _ => PollResponse.state JobState.jobComplete) =
      Except.ok JobState.jobComplete :=
    wait_for_job_nonterminal_then_complete 0
      (fun _ => PollResponse.state JobState.jobComplete) maxPolls (by omega)
      (fun i hi => absurd hi (Nat.not_lt_zero i)) rfl
  constructor
  · unfold execute_job_and_read
    rw [h1, h2]
  · unfold execute_job_and_read
    rw [h1]

/-- C5 witness: two `InProgress` polls before `JobComplete` yield the
same records as immediate success. -/
theorem C5_retried_poll_equals_immediate_success_witness :
    execute_job_and_read 5
      (fun i => if i < 2 then PollResponse.state JobState.inProgress
                else PollResponse.state JobState.jobComplete) [1, 2] =
      execute_job_and_read 5 (fun _ => PollResponse.state JobState.jobComplete) [1, 2] ∧
    execute_job_and_read 5
      (fun i => if i < 2 then PollResponse.state JobState.inProgress
                else PollResponse.state JobState.jobComplete) [1, 2] =
      Except.ok [1, 2] :=
  C5_retried_poll_equals_immediate_success
    (fun i => if i < 2 then PollResponse.state JobState.inProgress
              else PollResponse.state JobState.jobComplete)
    2 5 [1, 2] (by decide) (by decide) (by decide)

/-- C8: a job-status poll answered with errorCode
`TXN_SECURITY_METERING_ERROR` makes the Job Poller raise a
user-actionable configuration error with exactly the fixed remediation
text, without retrying the poll (the outcome does not depend on any
later poll response). -/
theorem C8_txn_security_metering_error
    (polls : Nat → PollResponse) (maxPolls : Nat) (msg : String)
    (hpos : 0 < maxPolls)
    (h0 : polls 0 = PollResponse.httpError "TXN_SECURITY_METERING_ERROR" msg) :
    wait_for_job maxPolls polls = Except.error (PollError.configError TRANSIENT_AUTH_MESSAGE) ∧
    TRANSIENT_AUTH_MESSAGE =
      "A transient authentication error occurred. To prevent future syncs from failing, assign the \"Exempt from Transaction Security\" user permission to the authenticated user." ∧
    (∀ polls' : Nat → PollResponse, polls' 0 = polls 0 →
      wait_for_job maxPolls polls' = wait_for_job maxPolls polls) := by
  obtain ⟨d, rfl⟩ : ∃ d, maxPolls = d + 1 := ⟨maxPolls - 1, by omega⟩
  have hmain : ∀ q : Nat → PollResponse,
      q 0 = PollResponse.httpError "TXN_SECURITY_METERING_ERROR" msg →
      wait_for_job (d + 1) q = Except.error (PollError.configError TRANSIENT_AUTH_MESSAGE) := by
    intro q hq
    simp only [wait_for_job]
    rw [hq]
    simp
  refine ⟨hmain polls h0, rfl, ?_⟩
  intro polls' hp
  rw [hmain polls h0, hmain polls' (hp.trans h0)]

/-- C8 witness: a concrete poll sequence whose first answer carries the
transaction-security error code. -/
theorem C8_txn_security_metering_error_witness :
    wait_for_job 3
      (fun _ => PollResponse.httpError "TXN_SECURITY_METERING_ERROR"
        "transaction security policies took too long to complete") =
      Except.error (PollError.configError TRANSIENT_AUTH_MESSAGE) :=
  (C8_txn_security_metering_error
    (fun _ => PollResponse.httpError "TXN_SECURITY_METERING_ERROR"
      "transaction security policies took too long to complete")
    3 "transaction security policies took too long to complete"
    (by decide) rfl).1

/-!
Part 5: bulk result pagination (spec sections 3, 6 and 8).  A completed
job's result pages are fetched from the results endpoint; each response
carries the records of one page and a `Sforce-Locator` header naming the
next page, with the sentinel value `"null"` on the last page.  The
endpoint is modelled by `fetch`, mapping the locator of the request
(`none` for the first request) to the page body and the locator header.
-/

/-- Modelled from the spec: the reader of a job's results follows the
locator chain: fetch without a locator first, then keep fetching with
the returned locator until the sentinel `"null"`.  The result is the
trace of request locators (in request order) together with all records
read, in page order; the fuel bounds the number of page fetches and
`none` signals that the chain did not terminate within the fuel. -/
def readResultPages (fetch : Option String → Option (List Nat × String)) :
    Nat → Option String → Option (List (Option String) × List Nat)
  | 0, _ => none
  | fuel + 1, loc =>
    match fetch loc with
    | none => none
    | some (recs, nextLoc) =>
      if nextLoc = "null" then some ([loc], recs)
      else
        match readResultPages fetch fuel (some nextLoc) with
        | none => none
        | some (trace, rest) => some (loc :: trace, recs ++ rest)

/-- The pages of a job form a locator chain starting at `entry`: the
fetch of `entry` returns the first page, each page's locator header
leads to the next page, and the last page's header is the sentinel
`"null"` (spec: "a result-locator cursor for paginated result
retrieval", sequence strictly ordered). -/
def chainsB (fetch : Option String → Option (List Nat × String)) :
    Option String → List (List Nat × String) → Bool
  | _, [] => false
  | entry, (recs, loc) :: rest =>
    if fetch entry = some (recs, loc) then
      match rest with
      | [] => decide (loc = "null")
      | _ :: _ => decide (loc ≠ "null") && chainsB fetch (some loc) rest
    else false

theorem readResultPages_succ (fetch : Option String → Option (List Nat × String))
    (fuel : Nat) (loc : Option String) :
    readResultPages fetch (fuel + 1) loc =
      match fetch loc with
      | none => none
      | some (recs, nextLoc) =>
        if nextLoc = "null" then some ([loc], recs)
        else
          match readResultPages fetch fuel (some nextLoc) with
          | none => none
          | some (trace, rest) => some (loc :: trace, recs ++ rest) := rfl

theorem readResultPages_of_chain (pages : List (List Nat × String)) :
    ∀ (fetch : Option String → Option (List Nat × String)) (entry : Option String),
    chainsB fetch entry pages = true →
    readResultPages fetch pages.length entry =
      some (entry :: ((pages.map Prod.snd).dropLast.map some),
            (pages.map Prod.fst).flatten) := by
  induction pages with
  | nil =>
    intro fetch entry h
    simp [chainsB] at h
  | cons p rest ih =>
    intro fetch entry h
    obtain ⟨recs, loc⟩ := p
    simp only [chainsB] at h
    split at h
    case isFalse => exact absurd h (by simp)
    case isTrue hf =>
      cases rest with
      | nil =>
        have hloc : loc = "null" := of_decide_eq_true h
        subst hloc
        simp only [List.length_cons, List.length_nil, Nat.zero_add]
        rw [readResultPages_succ, hf]
        simp
      | cons r rs =>
        rw [Bool.and_eq_true] at h
        have hne : loc ≠ "null" := of_decide_eq_true h.1
        have hch := ih fetch (some loc) h.2
        simp only [List.length_cons] at hch ⊢
        rw [readResultPages_succ, hf]
        simp only [hne, if_false, ite_false, if_neg, reduceIte]
        rw [hch]
        simp [List.dropLast_cons₂]

/-- C3: for a job whose result pages are linked by a locator chain
ending in the sentinel `"null"`, reading the results fetches each page
exactly once (the request trace lists the chain locators without
repetition), in locator order, and yields the concatenation of all
pages' records in page order. -/
theorem C3_bulk_pagination_follows_locator_chain
    (fetch : Option String → Option (List Nat × String))
    (pages : List (List Nat × String))
    (hchain : chainsB fetch none pages = true)
    (hnodup : ((pages.map Prod.snd).dropLast).Nodup) :
    readResultPages fetch pages.length none =
      some (none :: ((pages.map Prod.snd).dropLast.map some),
            (pages.map Prod.fst).flatten) ∧
    (none :: ((pages.map Prod.snd).dropLast.map some)).Nodup := by
  refine ⟨readResultPages_of_chain pages fetch none hchain, ?_⟩
  refine List.nodup_cons.mpr ⟨?_, ?_⟩
  · intro hmem
    rcases List.mem_map.mp hmem with ⟨a, _, ha⟩
    exact Option.noConfusion ha
  · exact hnodup.map (fun a b => Option.some.inj)

/-- A results endpoint serving three pages with locator chain
`1 -> 2 -> null`. -/
def fetchThreePages : Option String → Option (List Nat × String)
  | none => some ([1, 2], "1")
  | some l =>
    if l = "1" then some ([3, 4], "2")
    else if l = "2" then some ([5], "null")
    else none

/-- C3 witness: three pages with locators `1 -> 2 -> null` are fetched
once each, in order, and yield all records in page order. -/
theorem C3_bulk_pagination_follows_locator_chain_witness :
    readResultPages fetchThreePages 3 none =
      some ([none, some "1", some "2"], [1, 2, 3, 4, 5]) ∧
    ([none, some "1", some "2"] : List (Option String)).Nodup := by
  have h := C3_bulk_pagination_follows_locator_chain fetchThreePages
    [([1, 2], "1"), ([3, 4], "2"), ([5], "null")] (by decide) (by decide)
  exact ⟨h.1, by decide⟩

/-!
Part 6: the Property Chunker merge (spec section 4.3).  A record
returned by one property-chunk request is its primary-key value paired
with its field mapping (for which we reuse `PyDict`); a chunk result is
a list of such records.  The merge upserts every record of every chunk
into an accumulating mapping keyed by primary key, unioning field
mappings with Python `dict.update`.
-/

/-- Python `d1.update(d2)`: set every entry of `d2` in `d1`, in order. -/
def dupdate (d1 d2 : PyDict) : PyDict :=
  d2.foldl (fun acc p => dset acc p.1 p.2) d1

/-- Lookup in the accumulating merge mapping, keyed by primary key. -/
def plookup : List (Nat × PyDict) → Nat → Option PyDict
  | [], _ => none
  | (k, d) :: rest, pk => if k = pk then some d else plookup rest pk

/-- Modelled from the spec: upsert one record into the accumulating
mapping — if the primary key is present, union the field mappings;
otherwise append a new entry (spec 4.3: "upsert into an accumulating
mapping keyed by primary key, unioning fields"). -/
def upsertRecord : List (Nat × PyDict) → Nat → PyDict → List (Nat × PyDict)
  | [], pk, fields => [(pk, fields)]
  | (k, d) :: rest, pk, fields =>
    if k = pk then (k, dupdate d fields) :: rest
    else (k, d) :: upsertRecord rest pk fields

/-- Modelled from the spec: merge one chunk's records into the
accumulator. -/
def mergeChunk (acc : List (Nat × PyDict)) (chunk : List (Nat × PyDict)) :
    List (Nat × PyDict) :=
  chunk.foldl (fun a r => upsertRecord a r.1 r.2) acc

/-- Modelled from the spec: `merge(chunk_results) -> records` — merge
every chunk in order, starting from the empty mapping. -/
def mergeChunks (chunks : List (List (Nat × PyDict))) : List (Nat × PyDict) :=
  chunks.foldl mergeChunk []

theorem dlookup_isSome_iff (d : PyDict) (f : String) :
    (dlookup d f).isSome = true ↔ ∃ v, (f, v) ∈ d := by
  induction d with
  | nil => simp [dlookup]
  | cons hd tl ih =>
    by_cases h : hd.1 = f
    · constructor
      · intro _
        refine ⟨hd.2, ?_⟩
        rw [show ((f, hd.2) : String × PyVal) = (hd.1, hd.2) from by rw [h]]
        exact List.mem_cons_self _ _
      · intro _
        simp [dlookup, h]
    · rw [show dlookup (hd :: tl) f = dlookup tl f from by simp [dlookup, h], ih]
      constructor
      · rintro ⟨v, hv⟩
        exact ⟨v, List.mem_cons_of_mem _ hv⟩
      · rintro ⟨v, hv⟩
        rcases List.mem_cons.mp hv with he | hm
        · exact absurd (congrArg Prod.fst he).symm h
        · exact ⟨v, hm⟩

theorem dset_isSome_iff (d : PyDict) (k k' : String) (v : PyVal) :
    (dlookup (dset d k v) k').isSome = true ↔
      k' = k ∨ (dlookup d k').isSome = true := by
  by_cases h : k' = k
  · subst h
    simp [dlookup_dset_self]
  · simp [dlookup_dset_ne d k k' v h, h]

theorem dupdate_isSome_iff (d2 : PyDict) : ∀ (d1 : PyDict) (f : String),
    (dlookup (dupdate d1 d2) f).isSome = true ↔
      (dlookup d1 f).isSome = true ∨ (dlookup d2 f).isSome = true := by
  induction d2 with
  | nil => intro d1 f; simp [dupdate, dlookup]
  | cons p t ih =>
    intro d1 f
    have hstep : dupdate d1 (p :: t) = dupdate (dset d1 p.1 p.2) t := rfl
    rw [hstep, ih, dset_isSome_iff]
    by_cases h : p.1 = f
    · simp [dlookup, h]
    · rw [show dlookup (p :: t) f = dlookup t f from by simp [dlookup, h]]
      have hne : ¬ (f = p.1) := fun hh => h hh.symm
      tauto

theorem keys_upsertRecord (acc : List (Nat × PyDict)) (pk : Nat) (fields : PyDict) :
    (upsertRecord acc pk fields).map Prod.fst =
      if pk ∈ acc.map Prod.fst then acc.map Prod.fst
      else acc.map Prod.fst ++ [pk] := by
  induction acc with
  | nil => simp [upsertRecord]
  | cons hd tl ih =>
    by_cases h : hd.1 = pk
    · simp [upsertRecord, h]
    · have hne : ¬ (pk = hd.1) := fun hh => h hh.symm
      by_cases hm : pk ∈ tl.map Prod.fst
      · simp [upsertRecord, h, ih, hm, hne]
      · simp [upsertRecord, h, ih, hm, hne]

theorem nodup_keys_upsertRecord (acc : List (Nat × PyDict)) (pk : Nat)
    (fields : PyDict) (h : (acc.map Prod.fst).Nodup) :
    ((upsertRecord acc pk fields).map Prod.fst).Nodup := by
  rw [keys_upsertRecord]
  split
  · exact h
  · case isFalse hm => simp [List.nodup_append, h, hm]

theorem plookup_upsertRecord_self (acc : List (Nat × PyDict)) (pk : Nat)
    (fields : PyDict) :
    plookup (upsertRecord acc pk fields) pk =
      some (match plookup acc pk with
            | some d => dupdate d fields
            | none => fields) := by
  induction acc with
  | nil => simp [upsertRecord, plookup]
  | cons hd tl ih =>
    by_cases h : hd.1 = pk
    · simp [upsertRecord, h, plookup]
    · simp [upsertRecord, h, plookup, ih]

theorem plookup_upsertRecord_ne (acc : List (Nat × PyDict)) (pk k : Nat)
    (fields : PyDict) (h : k ≠ pk) :
    plookup (upsertRecord acc pk fields) k = plookup acc k := by
  have hne : ¬ (pk = k) := fun hh => h hh.symm
  induction acc with
  | nil => simp [upsertRecord, plookup, hne]
  | cons hd tl ih =>
    by_cases hk : hd.1 = pk
    · rw [show hd = (hd.1, hd.2) from rfl, hk]
      simp [upsertRecord, plookup, hne]
    · simp [upsertRecord, hk, plookup, ih]

theorem mergeChunks_eq_foldl_flatten (chunks : List (List (Nat × PyDict))) :
    mergeChunks chunks =
      (chunks.flatten).foldl (fun a r => upsertRecord a r.1 r.2) [] := by
  suffices hgen : ∀ acc : List (Nat × PyDict),
      chunks.foldl mergeChunk acc =
        (chunks.flatten).foldl (fun a r => upsertRecord a r.1 r.2) acc from hgen []
  induction chunks with
  | nil => intro acc; rfl
  | cons c t ih =>
    intro acc
    simp only [List.foldl_cons, List.flatten_cons, List.foldl_append]
    exact ih (mergeChunk acc c)

theorem keys_foldl_upsert (recs : List (Nat × PyDict)) :
    ∀ (acc : List (Nat × PyDict)) (k : Nat),
    (k ∈ (recs.foldl (fun a r => upsertRecord a r.1 r.2) acc).map Prod.fst) ↔
      k ∈ acc.map Prod.fst ∨ ∃ r ∈ recs, r.1 = k := by
  induction recs with
  | nil => intro acc k; simp
  | cons r t ih =>
    intro acc k
    simp only [List.foldl_cons]
    rw [ih]
    have hk : k ∈ (upsertRecord acc r.1 r.2).map Prod.fst ↔
        k ∈ acc.map Prod.fst ∨ r.1 = k := by
      rw [keys_upsertRecord]
      split
      · case isTrue hm =>
        constructor
        · exact fun hh => Or.inl hh
        · rintro (hh | hh)
          · exact hh
          · exact hh ▸ hm
      · case isFalse hm =>
        simp [eq_comm]
    rw [hk]
    constructor
    · rintro ((hm | he) | ⟨r', hr', hk'⟩)
      · exact Or.inl hm
      · exact Or.inr ⟨r, List.mem_cons_self r t, he⟩
      · exact Or.inr ⟨r', List.mem_cons_of_mem r hr', hk'⟩
    · rintro (hm | ⟨r', hr', hk'⟩)
      · exact Or.inl (Or.inl hm)
      · rcases List.mem_cons.mp hr' with hre | hrt
        · subst hre
          exact Or.inl (Or.inr hk')
        · exact Or.inr ⟨r', hrt, hk'⟩

theorem nodup_keys_foldl_upsert (recs : List (Nat × PyDict)) :
    ∀ acc : List (Nat × PyDict), (acc.map Prod.fst).Nodup →
    ((recs.foldl (fun a r => upsertRecord a r.1 r.2) acc).map Prod.fst).Nodup := by
  induction recs with
  | nil => intro acc h; exact h
  | cons r t ih =>
    intro acc h
    simp only [List.foldl_cons]
    exact ih _ (nodup_keys_upsertRecord acc r.1 r.2 h)

theorem fields_foldl_upsert (recs : List (Nat × PyDict)) :
    ∀ (acc : List (Nat × PyDict)) (k : Nat) (f : String),
    (∃ d, plookup (recs.foldl (fun a r => upsertRecord a r.1 r.2) acc) k = some d ∧
          (dlookup d f).isSome = true) ↔
      (∃ d, plookup acc k = some d ∧ (dlookup d f).isSome = true) ∨
      (∃ r ∈ recs, r.1 = k ∧ (dlookup r.2 f).isSome = true) := by
  induction recs with
  | nil => intro acc k f; simp
  | cons r t ih =>
    intro acc k f
    simp only [List.foldl_cons]
    rw [ih]
    by_cases hk : r.1 = k
    · subst hk
      have h1 : (∃ d, plookup (upsertRecord acc r.1 r.2) r.1 = some d ∧
            (dlookup d f).isSome = true) ↔
          ((∃ d, plookup acc r.1 = some d ∧ (dlookup d f).isSome = true) ∨
            (dlookup r.2 f).isSome = true) := by
        rw [plookup_upsertRecord_self]
        cases hacc : plookup acc r.1 with
        | none => simp [hacc]
        | some d0 => simp [hacc, dupdate_isSome_iff]
      rw [h1]
      constructor
      · rintro ((hA | hB) | ⟨r', hr', hk', hf'⟩)
        · exact Or.inl hA
        · exact Or.inr ⟨r, List.mem_cons_self r t, rfl, hB⟩
        · exact Or.inr ⟨r', List.mem_cons_of_mem r hr', hk', hf'⟩
      · rintro (hA | ⟨r', hr', hk', hf'⟩)
        · exact Or.inl (Or.inl hA)
        · rcases List.mem_cons.mp hr' with hre | hrt
          · subst hre
            exact Or.inl (Or.inr hf')
          · exact Or.inr ⟨r', hrt, hk', hf'⟩
    · rw [plookup_upsertRecord_ne acc r.1 k r.2 (fun hh => hk hh.symm)]
      constructor
      · rintro (hA | ⟨r', hr', hk', hf'⟩)
        · exact Or.inl hA
        · exact Or.inr ⟨r', List.mem_cons_of_mem r hr', hk', hf'⟩
      · rintro (hA | ⟨r', hr', hk', hf'⟩)
        · exact Or.inl hA
        · rcases List.mem_cons.mp hr' with hre | hrt
          · subst hre
            exact absurd hk' hk
          · exact Or.inr ⟨r', hrt, hk', hf'⟩

/-- C2: the Property-Chunker merge yields exactly one record per
primary-key value (the merged keys are duplicate-free and are exactly
the keys returned by some chunk); each merged record has a field
defined exactly when some chunk returned that field for that key (the
field set is the union across chunks, so a key absent from a later
chunk keeps its fields); a chunk with zero records contributes no keys,
and if every chunk is empty the merged result is empty. -/
theorem C2_property_chunker_merge (chunks : List (List (Nat × PyDict))) :
    ((mergeChunks chunks).map Prod.fst).Nodup ∧
    (∀ k, k ∈ (mergeChunks chunks).map Prod.fst ↔
      ∃ c ∈ chunks, ∃ r ∈ c, r.1 = k) ∧
    (∀ k f, (∃ d, plookup (mergeChunks chunks) k = some d ∧
              (dlookup d f).isSome = true) ↔
            (∃ c ∈ chunks, ∃ r ∈ c, r.1 = k ∧ (dlookup r.2 f).isSome = true)) ∧
    ((∀ c ∈ chunks, c = []) → mergeChunks chunks = []) := by
  refine ⟨?_, ?_, ?_, ?_⟩
  · rw [mergeChunks_eq_foldl_flatten]
    exact nodup_keys_foldl_upsert chunks.flatten [] (by simp)
  · intro k
    rw [mergeChunks_eq_foldl_flatten, keys_foldl_upsert]
    simp only [List.map_nil, List.not_mem_nil, false_or]
    constructor
    · rintro ⟨r, hr, hk⟩
      rcases List.mem_flatten.mp hr with ⟨c, hc, hrc⟩
      exact ⟨c, hc, r, hrc, hk⟩
    · rintro ⟨c, hc, r, hrc, hk⟩
      exact ⟨r, List.mem_flatten.mpr ⟨c, hc, hrc⟩, hk⟩
  · intro k f
    rw [mergeChunks_eq_foldl_flatten, fields_foldl_upsert]
    simp only [plookup, reduceCtorEq, false_and, exists_const, false_or]
    constructor
    · rintro ⟨r, hr, hk, hf⟩
      rcases List.mem_flatten.mp hr with ⟨c, hc, hrc⟩
      exact ⟨c, hc, r, hrc, hk, hf⟩
    · rintro ⟨c, hc, r, hrc, hk, hf⟩
      exact ⟨r, List.mem_flatten.mpr ⟨c, hc, hrc⟩, hk, hf⟩
  · intro hemp
    rw [mergeChunks_eq_foldl_flatten]
    have : chunks.flatten = [] := by
      rw [List.flatten_eq_nil_iff]
      exact hemp
    rw [this]
    rfl

/-!
Part 7: bulk job creation and the fallback to REST (spec sections 4.1,
4.4(d) and 7(a)).
-/

/-- A response to the bulk job creation request. -/
inductive CreateJobResponse where
  | ok (id : String)
  | err (status : Nat) (errorCode : String) (message : String)
deriving DecidableEq, Repr

/-- Modelled from the spec and the unit tests: `create_stream_job`
submits the query; an error body whose errorCode classifies the job as
skippable for this stream — the entity not being supported by the Bulk
API (`INVALIDENTITY`) among the codes exercised by the tests — is
logged and the function returns `none` instead of raising ("None
signals unsupported by bulk API, fall back", spec 4.1); an unclassified
error raises. -/
def create_stream_job (resp : CreateJobResponse) : Except String (Option String) :=
  match resp with
  | CreateJobResponse.ok id => Except.ok (some id)
  | CreateJobResponse.err _ code msg =>
    if code = "INVALIDENTITY" ∨ code = "REQUEST_LIMIT_EXCEEDED" ∨
       code = "API_ERROR" ∨ code = "LIMIT_EXCEEDED"
    then Except.ok none
    else Except.error msg

/-- Modelled from the spec: the bulk stream read of one slice — create
the job; with a job id read the bulk records; with `none` fall back to
reading the same slice through the REST API (spec 4.4(d), 7(a)). -/
def bulk_read_with_fallback (createResp : CreateJobResponse)
    (bulkRecords restRecords : List Nat) : Except String (List Nat) :=
  match create_stream_job createResp with
  | Except.ok (some _) => Except.ok bulkRecords
  | Except.ok none => Except.ok restRecords
  | Except.error e => Except.error e

/-- C4: a bulk job creation rejected with the `INVALIDENTITY` error code
makes job submission return `None` instead of raising, and the stream
falls back to the REST API for the same slice, so the read succeeds with
the REST records. -/
theorem C4_invalidentity_falls_back_to_rest
    (status : Nat) (msg : String) (bulkRecords restRecords : List Nat) :
    create_stream_job (CreateJobResponse.err status "INVALIDENTITY" msg) =
      Except.ok none ∧
    bulk_read_with_fallback (CreateJobResponse.err status "INVALIDENTITY" msg)
      bulkRecords restRecords = Except.ok restRecords := by
  constructor
  · simp [create_stream_job]
  · simp [bulk_read_with_fallback, create_stream_job]

/-!
Part 8: the Sync Orchestrator (spec section 4.5).  A configured stream
is modelled by its name, its checkpoint interval and the sequence of
outcomes its read produces: records (with cursor values), a rate-limit
error, or a fatal error.
-/

/-- One step of a stream read: a record carrying its cursor value, a
rate-limit error response (errorCode REQUEST_LIMIT_EXCEEDED), or a
fatal error. -/
inductive ReadItem where
  | record (cursor : Nat)
  | rateLimit
  | fatalError
deriving DecidableEq, Repr

/-- The terminal outcomes of one stream read (spec 4.5 state machine:
Completed, RateLimited, Failed). -/
inductive StreamOutcome where
  | completed
  | rateLimited
  | failed
deriving DecidableEq, Repr

/-- A protocol message emitted by the orchestrator: a record message or
a state (checkpoint) message, both carrying the stream name and the
cursor value. -/
inductive Msg where
  | record (stream : String) (cursor : Nat)
  | state (stream : String) (cursor : Nat)
deriving DecidableEq, Repr

/-- A configured stream: its name, its checkpoint interval and the
sequence of read outcomes its read produces. -/
structure StreamModel where
  name : String
  interval : Nat
  items : List ReadItem
deriving DecidableEq, Repr

/-- Modelled from the spec: read one stream, emitting a record message
per record, a checkpoint state message every `interval` records and a
final state message at completion; reading stops at the first
rate-limit or fatal error, keeping the messages already emitted (spec
4.5).  `count` counts the records already read, `last` is the last
cursor seen. -/
def readItems (name : String) (interval : Nat) :
    List ReadItem → Nat → Nat → List Msg × StreamOutcome
  | [], _, last => ([Msg.state name last], StreamOutcome.completed)
  | ReadItem.record c :: rest, count, _ =>
    let pre := readItems name interval rest (count + 1) c
    ((Msg.record name c ::
      (if (count + 1) % interval = 0 then [Msg.state name c] else [])) ++ pre.1,
     pre.2)
  | ReadItem.rateLimit :: _, _, _ => ([], StreamOutcome.rateLimited)
  | ReadItem.fatalError :: _, _, _ => ([], StreamOutcome.failed)

/-- The messages and outcome of one full stream read. -/
def readStream (s : StreamModel) : List Msg × StreamOutcome :=
  readItems s.name s.interval s.items 0 0

/-- Modelled from the spec: the Sync Orchestrator iterates the
configured streams in catalog order; a completed stream is followed by
the next one; a rate-limited stream ends the whole sync successfully
with the messages emitted so far (streams after it are never read); a
failed stream fails the sync (spec 4.5 and 7(b)). -/
def syncOrchestrator : List StreamModel → Except String (List Msg)
  | [] => Except.ok []
  | s :: rest =>
    match (readStream s).2 with
    | StreamOutcome.completed =>
      match syncOrchestrator rest with
      | Except.ok msgs => Except.ok ((readStream s).1 ++ msgs)
      | Except.error e => Except.error e
    | StreamOutcome.rateLimited => Except.ok (readStream s).1
    | StreamOutcome.failed => Except.error "stream failed"

/-- C1: when a stream receives a rate-limit error at any point during
its read, the sync emits the records and checkpoint state that stream
already produced (after the streams before it completed), never reads
any subsequent stream (the result does not depend on the streams after
the rate-limited one), and the whole sync terminates successfully. -/
theorem C1_rate_limit_ends_sync_gracefully
    (pre post : List StreamModel) (s : StreamModel)
    (hpre : ∀ t ∈ pre, (readStream t).2 = StreamOutcome.completed)
    (hs : (readStream s).2 = StreamOutcome.rateLimited) :
    syncOrchestrator (pre ++ s :: post) =
      Except.ok ((pre.map (fun t => (readStream t).1)).flatten ++ (readStream s).1) ∧
    (∀ post' : List StreamModel,
      syncOrchestrator (pre ++ s :: post') = syncOrchestrator (pre ++ s :: post)) := by
  have main : ∀ (q : List StreamModel),
      (∀ t ∈ q, (readStream t).2 = StreamOutcome.completed) →
      ∀ p : List StreamModel, syncOrchestrator (q ++ s :: p) =
        Except.ok ((q.map (fun t => (readStream t).1)).flatten ++ (readStream s).1) := by
    intro q
    induction q with
    | nil =>
      intro _ p
      simp only [List.nil_append, List.map_nil, List.flatten_nil]
      simp [syncOrchestrator, hs]
    | cons t q' ih =>
      intro hq p
      have ht : (readStream t).2 = StreamOutcome.completed :=
        hq t (List.mem_cons_self t q')
      have hq' : ∀ u ∈ q', (readStream u).2 = StreamOutcome.completed :=
        fun u hu => hq u (List.mem_cons_of_mem t hu)
      simp only [List.cons_append, syncOrchestrator, ht]
      rw [show q'.append (s :: p) = q' ++ s :: p from rfl, ih hq' p]
      simp [List.append_assoc]
  refine ⟨main pre hpre post, fun post' => (main pre hpre post').trans (main pre hpre post).symm⟩

/-- C1 witness: a completing first stream, a second stream rate-limited
after three records, and a third stream that is never read. -/
theorem C1_rate_limit_ends_sync_gracefully_witness :
    syncOrchestrator
      ([StreamModel.mk "S0" 2 [ReadItem.record 1, ReadItem.record 2]] ++
        StreamModel.mk "A" 2
          [ReadItem.record 1, ReadItem.record 2, ReadItem.record 3, ReadItem.rateLimit] ::
        [StreamModel.mk "B" 1 [ReadItem.record 9]]) =
      Except.ok
        (([StreamModel.mk "S0" 2 [ReadItem.record 1, ReadItem.record 2]].map
            (fun t => (readStream t).1)).flatten ++
          (readStream (StreamModel.mk "A" 2
            [ReadItem.record 1, ReadItem.record 2, ReadItem.record 3,
             ReadItem.rateLimit])).1) :=
  (C1_rate_limit_ends_sync_gracefully
    [StreamModel.mk "S0" 2 [ReadItem.record 1, ReadItem.record 2]]
    [StreamModel.mk "B" 1 [ReadItem.record 9]]
    (StreamModel.mk "A" 2
      [ReadItem.record 1, ReadItem.record 2, ReadItem.record 3, ReadItem.rateLimit])
    (by decide) (by decide)).1

/-- C2 witness: two chunks returning fields for the same primary key
merge into a duplicate-free record set, and all-empty chunks merge
to the empty result. -/
theorem C2_property_chunker_merge_witness :
    ((mergeChunks [[(1, [("propertyA", PyVal.str "A")])],
        [(1, [("propertyB", PyVal.str "B")])]]).map Prod.fst).Nodup ∧
    mergeChunks ([[], [], []] : List (List (Nat × PyDict))) = [] :=
  ⟨(C2_property_chunker_merge [[(1, [("propertyA", PyVal.str "A")])],
      [(1, [("propertyB", PyVal.str "B")])]]).1,
   (C2_property_chunker_merge ([[], [], []] : List (List (Nat × PyDict)))).2.2.2
     (by decide)⟩
